import Mathlib

/-!
Shallow embedding of the dualassetbot decision engine core
(`services/market_analysis.py`, `strategies/dual_investment_strategy.py`,
`strategies/strategy_manager.py`, `core/dual_investment_engine.py`).

Conventions of the embedding:
* Python floats are modelled as rationals (`ℚ`).
* Dictionary reads of the form `d.get(key, default)` are flattened into
  structure fields whose value is the retrieved-or-default value, which is
  observationally equivalent because every access in the modelled code is a
  get-with-default (or a plain read of an always-present key).
* Code that can raise (`TypeError` from multiplying a string strength by a
  float, `ZeroDivisionError`, `IndexError` on an empty frame, `ValueError`
  from an out-of-range enum lookup) is modelled with `Option`: `none` means the
  Python call raises.
* Python's `round` (banker's rounding, half to even) is `pythonRound`.
-/

namespace DualAssetBot

/-- Signal strength levels, `strategies/base_strategy.py`. -/
inductive SignalStrength where
  | STRONG_SELL
  | SELL
  | NEUTRAL
  | BUY
  | STRONG_BUY
deriving DecidableEq

/-- The integer `.value` of each enum member (1..5). -/
def SignalStrength.value : SignalStrength → ℕ
  | .STRONG_SELL => 1
  | .SELL => 2
  | .NEUTRAL => 3
  | .BUY => 4
  | .STRONG_BUY => 5

/-- `SignalStrength(z)`: enum lookup by value; `none` models the `ValueError`
raised for values outside 1..5. -/
def SignalStrength.ofValue (z : ℤ) : Option SignalStrength :=
  if z = 1 then some .STRONG_SELL
  else if z = 2 then some .SELL
  else if z = 3 then some .NEUTRAL
  else if z = 4 then some .BUY
  else if z = 5 then some .STRONG_BUY
  else none

/-- A Python value that is either a string or a number; the `strength` entry
of the trend dict is the string STRONG/MODERATE/NEUTRAL when produced by
`MarketAnalysisService.analyze_trend`, while `_analyze_trend` in the strategy
multiplies it by `0.5` (well-typed only for numbers). -/
inductive PyStrOrNum where
  | pystr (s : String)
  | pynum (q : ℚ)
deriving DecidableEq

/-- Market snapshot dict as read by the strategy layer and the engine.
Each field holds the result of the corresponding `get`-with-default. -/
structure MarketData where
  current_price : ℚ := 0
  trend : String := "NEUTRAL"
  trend_strength : PyStrOrNum := .pynum (1/2)
  volatility_ratio : ℚ := 1/50
  risk_level : String := "MEDIUM"
  rsi : ℚ := 50
  macd_signal : String := "NEUTRAL"
  ma_signal : String := "NEUTRAL"
  support : ℚ := 0
  resistance : ℚ := 0
  recommendation : String := "HOLD"
deriving DecidableEq

/-- Dual investment product record. -/
structure Product where
  id : String := ""
  type : String := ""
  strike_price : ℚ := 0
  apy : ℚ := 0
  term_days : ℚ := 7
  min_amount : ℚ := 100
  max_amount : ℚ := 0
  exercise_probability : ℚ := 1/2
deriving DecidableEq

/-- The metadata dict attached to a `StrategySignal`, flattened to the
entries the code reads back (`get('expected_return', 0.15)` and
`get('volatility', {})`). A signal produced by
`DualInvestmentStrategy.analyze` carries none of these keys, so its
metadata is the default record. -/
structure SignalMetadata where
  expected_return : ℚ := 3/20
  volatility_ratio : ℚ := 1/50
  risk_level : String := "MEDIUM"
deriving DecidableEq

/-- Strategy signal result, `strategies/base_strategy.py`. -/
structure StrategySignal where
  strategy_name : String
  signal : SignalStrength
  confidence : ℚ
  reasons : List String
  metadata : SignalMetadata := {}
deriving DecidableEq

/-- Investment decision result, `strategies/base_strategy.py`. -/
structure InvestmentDecision where
  should_invest : Bool
  product_id : String
  amount : ℚ
  expected_return : ℚ
  risk_score : ℚ
  ai_score : ℚ
  reasons : List String
  warnings : List String
deriving DecidableEq

/-- The `portfolio_info` dict of `make_investment_decision`, flattened to its
get-with-default reads. -/
structure PortfolioInfo where
  total_value : ℚ := 10000
  current_exposure : ℚ := 0
  max_risk_per_trade : ℚ := 1/50
deriving DecidableEq

/-- Python `round(q)`: round half to even. -/
def pythonRound (q : ℚ) : ℤ :=
  let f : ℤ := ⌊q⌋
  if q - f < 1/2 then f
  else if 1/2 < q - f then f + 1
  else if f % 2 = 0 then f else f + 1

/-- Python `round(q, 2)`. -/
def roundTo2 (q : ℚ) : ℚ := (pythonRound (q * 100) : ℚ) / 100

namespace DualInvestmentStrategy

/-- `self.min_confidence` from `BaseStrategy.__init__`. -/
def min_confidence : ℚ := 3/5

/-- `self.min_apy` from `DualInvestmentStrategy.__init__`. -/
def min_apy : ℚ := 1/10

/-- `self.trend_weight`. -/
def trend_weight : ℚ := 3/10

/-- `self.apy_weight`. -/
def apy_weight : ℚ := 1/4

/-- `self.risk_weight`. -/
def risk_weight : ℚ := 1/4

/-- `self.technical_weight`. -/
def technical_weight : ℚ := 1/5

/-- `self.optimal_volatility_range` lower bound. -/
def optimal_volatility_lo : ℚ := 3/20

/-- `self.optimal_volatility_range` upper bound. -/
def optimal_volatility_hi : ℚ := 7/20

/-- `_analyze_trend`: trend score in 0..1.  When the trend is BULLISH or
BEARISH the code computes `strength * 0.5` (resp. `* 0.3`); if `strength`
is a string — as in every snapshot produced by
`MarketAnalysisService.analyze_trend` — Python raises `TypeError`,
modelled as `none`. -/
def analyze_trend_score (md : MarketData) : Option ℚ :=
  if md.trend = "BULLISH" then
    match md.trend_strength with
    | .pynum s => some (min (1/2 + s * (1/2)) 1)
    | .pystr _ => none
  else if md.trend = "BEARISH" then
    match md.trend_strength with
    | .pynum s => some (max (1/2 - s * (3/10)) (1/5))
    | .pystr _ => none
  else
    some (1/2)

/-- `_evaluate_apy`: APY score in 0..1. -/
def evaluate_apy (p : Product) : ℚ :=
  if p.apy < min_apy then 0
  else if 1/2 ≤ p.apy then 1
  else if 3/10 ≤ p.apy then 4/5 + (p.apy - 3/10) * 1
  else if 1/5 ≤ p.apy then 3/5 + (p.apy - 1/5) * 2
  else 3/10 + (p.apy - min_apy) * 3

/-- `_assess_risk`: mean of three risk factors.  The second argument pair is
the `volatility_ratio` / `risk_level` read (with defaults) from whatever dict
is passed as `market_data` (the market snapshot in `analyze`, the signal's
metadata in `make_investment_decision`). -/
def assess_risk (p : Product) (volatility_ratio : ℚ) (risk_level : String) : ℚ :=
  let f1 : ℚ :=
    if p.exercise_probability ≤ 1/5 then 9/10
    else if p.exercise_probability ≤ 7/20 then 7/10
    else if p.exercise_probability ≤ 1/2 then 1/2
    else 1/5
  let f2 : ℚ :=
    if optimal_volatility_lo ≤ volatility_ratio ∧ volatility_ratio ≤ optimal_volatility_hi then 4/5
    else if volatility_ratio < optimal_volatility_lo then 3/5
    else 3/10
  let f3 : ℚ :=
    if risk_level = "LOW" then 9/10
    else if risk_level = "MEDIUM" then 3/5
    else 3/10
  (f1 + f2 + f3) / 3

/-- `_analyze_technicals`: technical score.  When support, resistance and
current price are all truthy (non-zero) the code divides by
`resistance - support`; identical support and resistance therefore raise
`ZeroDivisionError`, modelled as `none`. -/
def analyze_technicals (md : MarketData) : Option ℚ :=
  let s1 : ℚ :=
    if 30 ≤ md.rsi ∧ md.rsi ≤ 70 then 7/10
    else if 20 ≤ md.rsi ∧ md.rsi ≤ 80 then 1/2
    else 1/5
  let s2 : ℚ :=
    if md.macd_signal = "BUY" then 4/5
    else if md.macd_signal = "NEUTRAL" then 1/2
    else 1/5
  let s3 : ℚ :=
    if md.ma_signal = "BULLISH" then 4/5
    else if md.ma_signal = "NEUTRAL" then 1/2
    else 1/5
  if md.support ≠ 0 ∧ md.resistance ≠ 0 ∧ md.current_price ≠ 0 then
    if md.resistance - md.support = 0 then none
    else
      let position := (md.current_price - md.support) / (md.resistance - md.support)
      let s4 : ℚ :=
        if 3/10 ≤ position ∧ position ≤ 7/10 then 7/10
        else if 1/5 ≤ position ∧ position ≤ 4/5 then 1/2
        else 3/10
      some ((s1 + s2 + s3 + s4) / 4)
  else
    some ((s1 + s2 + s3) / 3)

/-- Score-to-strength bands at the end of `analyze`. -/
def signal_of_score (total_score : ℚ) : SignalStrength :=
  if 4/5 ≤ total_score then .STRONG_BUY
  else if 13/20 ≤ total_score then .BUY
  else if 7/20 ≤ total_score then .NEUTRAL
  else if 1/5 ≤ total_score then .SELL
  else .STRONG_SELL

/-- `DualInvestmentStrategy.analyze`.  The `symbol` argument is omitted: it
only flows into metadata entries no modelled code reads back.  `none` models
an escaping exception (from `_analyze_trend` or `_analyze_technicals`). -/
def analyze (md : MarketData) (p : Product) : Option StrategySignal :=
  match analyze_trend_score md with
  | none => none
  | some trend_score =>
    match analyze_technicals md with
    | none => none
    | some technical_score =>
      let apy_score := evaluate_apy p
      let risk_score := assess_risk p md.volatility_ratio md.risk_level
      let r1 : List String :=
        if trend_score > 7/10 then ["Strong " ++ md.trend ++ " trend detected"]
        else if trend_score < 3/10 then ["Weak or adverse trend"] else []
      let r2 : List String :=
        if apy_score > 4/5 then ["Excellent APY of " ++ toString (p.apy * 100) ++ "%"]
        else if apy_score < 2/5 then ["Low APY of " ++ toString (p.apy * 100) ++ "%"] else []
      let r3 : List String :=
        if risk_score > 7/10 then ["Favorable risk-reward ratio"]
        else if risk_score < 3/10 then ["High risk level detected"] else []
      let r4 : List String :=
        if technical_score > 7/10 then ["Positive technical indicators"]
        else if technical_score < 3/10 then ["Negative technical signals"] else []
      let total_score := trend_score * trend_weight + apy_score * apy_weight
        + risk_score * risk_weight + technical_score * technical_weight
      some {
        strategy_name := "DualInvestmentStrategy"
        signal := signal_of_score total_score
        confidence := total_score
        reasons := r1 ++ r2 ++ r3 ++ r4
        metadata := {} }

/-- `calculate_position_size`: fractional Kelly with safety factor 0.25,
capped, then `round(·, 2)`. -/
def calculate_position_size (signal : StrategySignal)
    (portfolio_value current_exposure max_risk_per_trade : ℚ) : ℚ :=
  let kelly_fraction := signal.confidence * signal.metadata.expected_return
  let position_fraction := kelly_fraction * (1/4)
  let max_position_fraction :=
    min max_risk_per_trade (min (1/10)
      (if 0 < portfolio_value then 1 - current_exposure / portfolio_value else 0))
  let capped := min position_fraction max_position_fraction
  roundTo2 (portfolio_value * capped)

/-- `make_investment_decision`. -/
def make_investment_decision (signal : StrategySignal) (p : Product)
    (pinfo : PortfolioInfo) : InvestmentDecision :=
  let base_invest : Bool :=
    decide (SignalStrength.BUY.value ≤ signal.signal.value ∧ min_confidence ≤ signal.confidence)
  let amount : ℚ :=
    if base_invest then
      calculate_position_size signal pinfo.total_value pinfo.current_exposure pinfo.max_risk_per_trade
    else 0
  let below_min : Bool := base_invest && decide (amount < p.min_amount)
  let reasons : List String :=
    if below_min then
      signal.reasons ++ ["Position size " ++ toString amount ++ " below minimum " ++ toString p.min_amount]
    else signal.reasons
  let period_return : ℚ := p.apy * (p.term_days / 365)
  let expected_return : ℚ := period_return * (1 - p.exercise_probability)
  let risk_score : ℚ := 1 - assess_risk p signal.metadata.volatility_ratio signal.metadata.risk_level
  let warnings : List String :=
    (if risk_score > 7/10 then ["High risk detected"] else [])
    ++ (if p.exercise_probability > 2/5 then ["High exercise probability"] else [])
  { should_invest := base_invest && !below_min
    product_id := p.id
    amount := amount
    expected_return := expected_return
    risk_score := risk_score
    ai_score := signal.confidence
    reasons := reasons
    warnings := warnings }

end DualInvestmentStrategy

namespace StrategyManager

/-- `_create_neutral_signal`. -/
def create_neutral_signal : StrategySignal :=
  { strategy_name := "EnsembleStrategy"
    signal := .NEUTRAL
    confidence := 0
    reasons := ["No valid signals from strategies"]
    metadata := {} }

/-- `_weighted_average_ensemble`.  `weights` models
`self.strategy_weights.get(name, 1.0)`; the surviving signals dict is a list
of (name, signal) pairs.  `none` models the `ValueError` raised by
`SignalStrength(round(avg))` for an out-of-range average. -/
def weighted_average_ensemble (weights : String → ℚ)
    (signals : List (String × StrategySignal)) : Option StrategySignal :=
  let total_weight := (signals.map (fun x => weights x.1)).sum
  let weighted_signal := (signals.map (fun x => (x.2.signal.value : ℚ) * weights x.1)).sum
  let weighted_confidence := (signals.map (fun x => x.2.confidence * weights x.1)).sum
  let all_reasons := (signals.map (fun x => x.2.reasons.map (fun r => x.1 ++ ": " ++ r))).flatten
  let avg_signal_value := if 0 < total_weight then weighted_signal / total_weight else 3
  let avg_confidence := if 0 < total_weight then weighted_confidence / total_weight else 0
  match SignalStrength.ofValue (pythonRound avg_signal_value) with
  | none => none
  | some s =>
    some { strategy_name := "EnsembleStrategy"
           signal := s
           confidence := avg_confidence
           reasons := all_reasons
           metadata := {} }

/-- `_combine_signals` under the default configuration
`ensemble_method = "weighted_average"` (set in `__init__`). -/
def combine_signals (weights : String → ℚ)
    (signals : List (String × StrategySignal)) : Option StrategySignal :=
  match signals with
  | [] => some create_neutral_signal
  | [x] => some x.2
  | _ => weighted_average_ensemble weights signals

/-- `_make_ensemble_decision` in the default configuration, where the
`DualInvestmentStrategy` instance is registered: it delegates to
`make_investment_decision` with the fixed portfolio info. -/
def make_ensemble_decision (ensemble_signal : StrategySignal) (p : Product) : InvestmentDecision :=
  DualInvestmentStrategy.make_investment_decision ensemble_signal p
    { total_value := 10000, current_exposure := 0, max_risk_per_trade := 1/50 }

end StrategyManager

namespace MarketAnalysisService

/-- The last `k` elements of a series (tail of a length-`k` rolling window). -/
def lastN (k : ℕ) (l : List ℚ) : List ℚ := l.drop (l.length - k)

/-- `rolling(window=k).mean().iloc[-1]`: mean of the last `k` values
(meaningful when `k ≤ l.length`; shorter series give NaN in pandas, which
the caller's comparisons treat as false). -/
def smaLast (k : ℕ) (l : List ℚ) : ℚ := (lastN k l).sum / (k : ℚ)

/-- `MarketAnalysisService.analyze_trend`, restricted to the close column:
returns (trend, strength).  `none` models the `IndexError` on an empty
frame.  When fewer than 50 bars are present, the SMA-50 (and possibly
SMA-20) tail is NaN, every comparison with it is false, and the result is
SIDEWAYS/NEUTRAL. -/
def analyze_trend : List ℚ → Option (String × String)
  | [] => none
  | c0 :: rest =>
    let current := (c0 :: rest).getLastD c0
    if (c0 :: rest).length < 50 then some ("SIDEWAYS", "NEUTRAL")
    else
      let sma20 := smaLast 20 (c0 :: rest)
      let sma50 := smaLast 50 (c0 :: rest)
      if sma20 < current ∧ sma50 < sma20 then
        some ("BULLISH", if sma20 * (102/100) < current then "STRONG" else "MODERATE")
      else if current < sma20 ∧ sma20 < sma50 then
        some ("BEARISH", if current < sma20 * (98/100) then "STRONG" else "MODERATE")
      else
        some ("SIDEWAYS", "NEUTRAL")

/-- One OHLC bar (volume is not read by `calculate_support_resistance`). -/
structure Bar where
  high : ℚ
  low : ℚ
  close : ℚ
deriving DecidableEq

/-- `df.tail(window)`. -/
def tailBars (w : ℕ) (l : List Bar) : List Bar := l.drop (l.length - w)

/-- Maximum of a list of rationals (`Series.max()` on a nonempty series). -/
def listMax : List ℚ → ℚ
  | [] => 0
  | a :: t => t.foldl max a

/-- Minimum of a list of rationals (`Series.min()` on a nonempty series). -/
def listMin : List ℚ → ℚ
  | [] => 0
  | a :: t => t.foldl min a

/-- Output record of `calculate_support_resistance`. -/
structure SRLevels where
  support : ℚ
  resistance : ℚ
  pivot : ℚ
  r1 : ℚ
  r2 : ℚ
  s1 : ℚ
  s2 : ℚ
deriving DecidableEq

/-- `MarketAnalysisService.calculate_support_resistance`.  `none` models the
`IndexError` from `iloc[-1]` on an empty window. -/
def calculate_support_resistance (w : ℕ) (bars : List Bar) : Option SRLevels :=
  match tailBars w bars with
  | [] => none
  | b :: rest =>
    let last := (b :: rest).getLastD b
    let resistance := listMax ((b :: rest).map Bar.high)
    let support := listMin ((b :: rest).map Bar.low)
    let pivot := (last.high + last.low + last.close) / 3
    some { support := support
           resistance := resistance
           pivot := pivot
           r1 := 2 * pivot - last.low
           r2 := pivot + (last.high - last.low)
           s1 := 2 * pivot - last.high
           s2 := pivot - (last.high - last.low) }

end MarketAnalysisService

namespace DualInvestmentEngine

/-- The signed relative distance from current price to strike used in
`evaluate_dual_investment_opportunity`. -/
def price_distance (p : Product) (ma : MarketData) : ℚ :=
  if p.type = "BUY_LOW" then (ma.current_price - p.strike_price) / ma.current_price
  else (p.strike_price - ma.current_price) / ma.current_price

/-- The base exercise probability (0.6 / 0.5 / 0.3) chosen from the overall
recommendation and the trend. -/
def base_probability (p : Product) (ma : MarketData) : ℚ :=
  if p.type = "BUY_LOW" then
    if ma.recommendation = "SELL" ∨ ma.recommendation = "STRONG_SELL" then 3/5
    else if ma.trend = "BEARISH" then 1/2
    else 3/10
  else
    if ma.recommendation = "BUY" ∨ ma.recommendation = "STRONG_BUY" then 3/5
    else if ma.trend = "BULLISH" then 1/2
    else 3/10

/-- Result record of `evaluate_dual_investment_opportunity` (the
`analysis_summary` sub-dict is presentation only and omitted). -/
structure EvalResult where
  product_id : String
  recommend : Bool
  exercise_probability : ℚ
  expected_return : ℚ
  risk_score : ℚ
  reasons : List String
deriving DecidableEq

/-- `DualInvestmentEngine.evaluate_dual_investment_opportunity`.
`min_apr_threshold` is `settings.min_apr_threshold` (default 0.15).
`none` models the `ZeroDivisionError`s for a zero current price, a zero
volatility ratio, or a volatility ratio of -1. -/
def evaluate_dual_investment_opportunity (min_apr_threshold : ℚ)
    (p : Product) (ma : MarketData) : Option EvalResult :=
  if ma.current_price = 0 then none
  else if ma.volatility_ratio * 5 = 0 then none
  else if 1 + ma.volatility_ratio = 0 then none
  else
    let pd := price_distance p ma
    let bp := base_probability p ma
    let distance_factor := max 0 (1 - pd / (ma.volatility_ratio * 5))
    let exercise_probability := bp * distance_factor
    let expected_return := p.apy * (p.term_days / 365)
    let risk_score := 100 * (expected_return / (1 + ma.volatility_ratio))
    let rec1 : Bool := decide (min_apr_threshold ≤ p.apy)
    let rec2 : Bool := decide (2/5 < exercise_probability ∧ exercise_probability < 7/10)
    let rec3 : Bool := decide (50 < risk_score)
    some { product_id := p.id
           recommend := rec1 || rec2 || rec3
           exercise_probability := exercise_probability
           expected_return := expected_return
           risk_score := risk_score
           reasons :=
             (if rec1 then ["APY meets minimum threshold"] else [])
             ++ (if rec2 then ["Exercise probability is in optimal range"] else [])
             ++ (if rec3 then ["Risk-adjusted score is favorable"] else []) }

end DualInvestmentEngine

/-- Position size formula exactly as the spec words it (§4.6): the Kelly
fraction times the safety factor, capped, times the portfolio value — with
no rounding.  Used to compare the spec's description against the code. -/
def position_size_claim (confidence expected_return portfolio_value
    current_exposure max_risk_per_trade : ℚ) : ℚ :=
  portfolio_value * min (confidence * expected_return * (1/4))
    (min max_risk_per_trade (min (1/10) (1 - current_exposure / portfolio_value)))

/-! Concrete inputs used by counterexamples and witnesses. -/

/-- A BUY_LOW product whose strike is 50% below the market price. -/
def C1_product : Product :=
  { id := "P1", type := "BUY_LOW", strike_price := 50, apy := 1/4, term_days := 7
    min_amount := 100, max_amount := 1000, exercise_probability := 1/2 }

/-- A calm sideways market at price 100 with volatility ratio 0.02. -/
def C1_market : MarketData :=
  { current_price := 100, trend := "SIDEWAYS", trend_strength := .pystr "NEUTRAL"
    volatility_ratio := 1/50, risk_level := "LOW", rsi := 50
    macd_signal := "NEUTRAL", ma_signal := "NEUTRAL"
    support := 90, resistance := 110, recommendation := "HOLD" }

/-- A snapshot with identical (non-zero) support and resistance, an expected
market condition per the error-handling design. -/
def C4_market : MarketData :=
  { current_price := 100, trend := "SIDEWAYS", trend_strength := .pystr "NEUTRAL"
    volatility_ratio := 1/50, risk_level := "MEDIUM", rsi := 50
    macd_signal := "NEUTRAL", ma_signal := "NEUTRAL"
    support := 100, resistance := 100, recommendation := "HOLD" }

/-- A BULLISH snapshot exactly as `MarketAnalysisService.analyze_trend`
produces it: the strength entry is the string STRONG. -/
def C4_bullish_market : MarketData :=
  { current_price := 100, trend := "BULLISH", trend_strength := .pystr "STRONG"
    volatility_ratio := 1/50, risk_level := "MEDIUM", rsi := 50
    macd_signal := "NEUTRAL", ma_signal := "NEUTRAL"
    support := 90, resistance := 110, recommendation := "HOLD" }

/-- A well-formed product record. -/
def C4_product : Product :=
  { id := "P4", type := "BUY_LOW", strike_price := 95, apy := 1/5, term_days := 7
    min_amount := 100, max_amount := 1000, exercise_probability := 3/10 }

/-- A BUY signal at exactly the minimum confidence, with default metadata. -/
def C5_signal : StrategySignal :=
  { strategy_name := "DualInvestmentStrategy", signal := .BUY, confidence := 3/5
    reasons := ["base reason"], metadata := {} }

/-- A product whose minimum amount (300) exceeds the computed position size
(200 at the default portfolio). -/
def C5_product : Product :=
  { id := "P5", type := "BUY_LOW", strike_price := 95, apy := 1/5, term_days := 7
    min_amount := 300, max_amount := 1000, exercise_probability := 3/10 }

/-- The default portfolio info dict. -/
def C5_pinfo : PortfolioInfo := {}

/-- A signal whose confidence and metadata expected return produce a raw
position size of 0.173, which `round(·, 2)` changes to 0.17. -/
def C6_cex_signal : StrategySignal :=
  { strategy_name := "DualInvestmentStrategy", signal := .BUY, confidence := 692/1000
    reasons := [], metadata := { expected_return := 1/10000 } }

/-- The spec's position-sizing scenario: confidence 0.8 and expected return
0.10 carried in the signal metadata. -/
def C6_scenario_signal : StrategySignal :=
  { strategy_name := "DualInvestmentStrategy", signal := .BUY, confidence := 4/5
    reasons := [], metadata := { expected_return := 1/10 } }

/-- The evaluation result the engine produces for `C1_product` in
`C1_market`: the exercise probability is exactly 0 (no clipping). -/
def C1_result : DualInvestmentEngine.EvalResult :=
  { product_id := "P1", recommend := true, exercise_probability := 0
    expected_return := 7/1460, risk_score := 1750/3723
    reasons := ["APY meets minimum threshold"] }

/-- A surviving strategy signal with confidence 0.8 (weight will be 0). -/
def C3_sigA : StrategySignal :=
  { strategy_name := "A", signal := .BUY, confidence := 4/5, reasons := [] }

/-- A second surviving strategy signal with confidence 0.8. -/
def C3_sigB : StrategySignal :=
  { strategy_name := "B", signal := .BUY, confidence := 4/5, reasons := [] }

/-- A surviving BUY signal with confidence 0.5 and weight 1. -/
def C3_wsigA : StrategySignal :=
  { strategy_name := "A", signal := .BUY, confidence := 1/2, reasons := [] }

/-- A surviving BUY signal with confidence 0.7 and weight 1. -/
def C3_wsigB : StrategySignal :=
  { strategy_name := "B", signal := .BUY, confidence := 7/10, reasons := [] }

/-- The ensemble signal for the two witness signals above: BUY with the
weighted-average confidence 0.6. -/
def C3_ensemble_result : StrategySignal :=
  { strategy_name := "EnsembleStrategy", signal := .BUY, confidence := 3/5, reasons := [] }

/-- A default market snapshot (sideways trend, neutral indicators). -/
def C8_market : MarketData := {}

/-- A default product record (zero APY). -/
def C8_product : Product := {}

/-- Two well-formed OHLC bars (low ≤ close ≤ high). -/
def C9_bars : List MarketAnalysisService.Bar :=
  [{ high := 105, low := 95, close := 100 }, { high := 106, low := 98, close := 104 }]

/-- The support/resistance levels computed for `C9_bars` with window 20. -/
def C9_levels : MarketAnalysisService.SRLevels :=
  { support := 95
    resistance := 106
    pivot := (106 + 98 + 104) / 3
    r1 := 2 * ((106 + 98 + 104) / 3) - 98
    r2 := (106 + 98 + 104) / 3 + (106 - 98)
    s1 := 2 * ((106 + 98 + 104) / 3) - 106
    s2 := (106 + 98 + 104) / 3 - (106 - 98) }

/-- A strictly increasing close series of length 200. -/
def C7_list : List ℚ := (List.range 200).map (fun i : ℕ => (i : ℚ))

end DualAssetBot

namespace DualAssetBot

/-- Evaluation rule for `pythonRound` when the fractional part is below one
half. -/
lemma pythonRound_low (q : ℚ) (z : ℤ) (h1 : (z : ℚ) ≤ q) (h2 : q - z < 1/2) :
    pythonRound q = z := by
  have hf : ⌊q⌋ = z := Int.floor_eq_iff.mpr ⟨h1, by linarith⟩
  unfold pythonRound
  rw [hf, if_pos h2]

/-- Evaluation rule for `roundTo2` when the scaled fractional part is below
one half. -/
lemma roundTo2_eval (q : ℚ) (z : ℤ) (h1 : (z : ℚ) ≤ q * 100) (h2 : q * 100 - z < 1/2) :
    roundTo2 q = z / 100 := by
  unfold roundTo2
  rw [pythonRound_low (q * 100) z h1 h2]

/-- Claim C2: if zero strategy signals survive validation, `_combine_signals`
still returns the neutral ensemble signal (NEUTRAL, confidence 0, explicit
"no valid signals" reason) and the ensemble decision built from it has
`should_invest = false` with a non-empty reasons list; the modelled path is
total, so no exception escapes. -/
theorem C2_theorem (w : String → ℚ) (p : Product) :
    StrategyManager.combine_signals w [] = some StrategyManager.create_neutral_signal
    ∧ StrategyManager.create_neutral_signal.signal = SignalStrength.NEUTRAL
    ∧ StrategyManager.create_neutral_signal.confidence = 0
    ∧ StrategyManager.create_neutral_signal.reasons = ["No valid signals from strategies"]
    ∧ (StrategyManager.make_ensemble_decision StrategyManager.create_neutral_signal p).should_invest = false
    ∧ (StrategyManager.make_ensemble_decision StrategyManager.create_neutral_signal p).reasons ≠ [] := by
  refine ⟨rfl, rfl, rfl, rfl, rfl, ?_⟩
  norm_num [StrategyManager.make_ensemble_decision, DualInvestmentStrategy.make_investment_decision,
    StrategyManager.create_neutral_signal, DualInvestmentStrategy.min_confidence,
    SignalStrength.value]

/-- Claim C4 (code bug exhibit): `DualInvestmentStrategy.analyze` raises on
expected market conditions.  On a snapshot with identical non-zero support
and resistance it raises `ZeroDivisionError` inside `_analyze_technicals`,
and on a BULLISH snapshot (whose strength entry is the string produced by
the market analyzer) it raises `TypeError` inside `_analyze_trend`; both are
modelled by the `none` result. -/
theorem C4_theorem :
    DualInvestmentStrategy.analyze C4_market C4_product = none
    ∧ DualInvestmentStrategy.analyze C4_bullish_market C4_product = none := by
  constructor <;>
    simp [DualInvestmentStrategy.analyze, DualInvestmentStrategy.analyze_trend_score,
      DualInvestmentStrategy.analyze_technicals, C4_market, C4_bullish_market]

/-- Claim C5: when the ensemble signal is BUY or stronger with confidence at
least `min_confidence` but the computed position size is below the product's
`min_amount`, the decision is downgraded to `should_invest = false`, the
below-minimum reason is appended, and the amount is the computed size (never
rounded up to the minimum). -/
theorem C5_theorem (signal : StrategySignal) (p : Product) (pinfo : PortfolioInfo)
    (h1 : SignalStrength.BUY.value ≤ signal.signal.value)
    (h2 : DualInvestmentStrategy.min_confidence ≤ signal.confidence)
    (h3 : DualInvestmentStrategy.calculate_position_size signal pinfo.total_value
        pinfo.current_exposure pinfo.max_risk_per_trade < p.min_amount) :
    (DualInvestmentStrategy.make_investment_decision signal p pinfo).should_invest = false
    ∧ (DualInvestmentStrategy.make_investment_decision signal p pinfo).amount
        = DualInvestmentStrategy.calculate_position_size signal pinfo.total_value
            pinfo.current_exposure pinfo.max_risk_per_trade
    ∧ (DualInvestmentStrategy.make_investment_decision signal p pinfo).reasons
        = signal.reasons ++ ["Position size "
            ++ toString (DualInvestmentStrategy.calculate_position_size signal pinfo.total_value
                  pinfo.current_exposure pinfo.max_risk_per_trade)
            ++ " below minimum " ++ toString p.min_amount] := by
  have hb : decide (SignalStrength.BUY.value ≤ signal.signal.value
      ∧ DualInvestmentStrategy.min_confidence ≤ signal.confidence) = true :=
    decide_eq_true ⟨h1, h2⟩
  have hm : decide (DualInvestmentStrategy.calculate_position_size signal pinfo.total_value
      pinfo.current_exposure pinfo.max_risk_per_trade < p.min_amount) = true :=
    decide_eq_true h3
  refine ⟨?_, ?_, ?_⟩ <;>
    simp [DualInvestmentStrategy.make_investment_decision, hb, hm]

/-- Claim C5 witness: a concrete BUY signal at minimum confidence against a
product with `min_amount` 300 (computed size 200). -/
theorem C5_witness :
    (DualInvestmentStrategy.make_investment_decision C5_signal C5_product C5_pinfo).should_invest = false :=
  (C5_theorem C5_signal C5_product C5_pinfo
    (by simp [C5_signal, SignalStrength.value])
    (by norm_num [C5_signal, DualInvestmentStrategy.min_confidence])
    (by
      unfold DualInvestmentStrategy.calculate_position_size
      rw [roundTo2_eval _ 20000 (by norm_num [C5_signal, C5_pinfo, min_def])
        (by norm_num [C5_signal, C5_pinfo, min_def])]
      norm_num [C5_product])).1

/-- Claim C6 counterexample: `calculate_position_size` does not return
`portfolio_value × position_fraction` verbatim — it returns that product
rounded to 2 decimal places.  With confidence 0.692 and metadata expected
return 0.0001 the raw product is 0.173 but the function returns 0.17. -/
theorem C6_counterexample :
    DualInvestmentStrategy.calculate_position_size C6_cex_signal 10000 0 (1/50) = 17/100
    ∧ position_size_claim C6_cex_signal.confidence C6_cex_signal.metadata.expected_return
        10000 0 (1/50) = 173/1000
    ∧ (17 : ℚ)/100 ≠ 173/1000 := by
  refine ⟨?_, ?_, by norm_num⟩
  · unfold DualInvestmentStrategy.calculate_position_size
    rw [roundTo2_eval _ 17 (by norm_num [C6_cex_signal, min_def])
      (by norm_num [C6_cex_signal, min_def])]
    norm_num
  · norm_num [position_size_claim, C6_cex_signal, min_def]

/-- Claim C6 (amended): for a positive portfolio value,
`calculate_position_size` returns the spec's
`portfolio_value × min(kelly × 0.25, max_risk_per_trade, 0.10,
1 − exposure/value)` rounded to two decimal places; and on the spec's
scenario (confidence 0.8, expected return 0.10, portfolio 10000, no
exposure, max risk 0.02) the returned amount is exactly 200. -/
theorem C6_theorem (signal : StrategySignal) (pv ce mr : ℚ) (hpv : 0 < pv) :
    DualInvestmentStrategy.calculate_position_size signal pv ce mr
      = roundTo2 (position_size_claim signal.confidence signal.metadata.expected_return pv ce mr)
    ∧ DualInvestmentStrategy.calculate_position_size C6_scenario_signal 10000 0 (1/50) = 200 := by
  constructor
  · simp [DualInvestmentStrategy.calculate_position_size, position_size_claim, hpv, mul_assoc]
  · unfold DualInvestmentStrategy.calculate_position_size
    rw [roundTo2_eval _ 20000 (by norm_num [C6_scenario_signal, min_def])
      (by norm_num [C6_scenario_signal, min_def])]
    norm_num

/-- Claim C6 witness: the amended statement applied at the spec scenario. -/
theorem C6_witness :
    DualInvestmentStrategy.calculate_position_size C6_scenario_signal 10000 0 (1/50) = 200 :=
  (C6_theorem C6_scenario_signal 10000 0 (1/50) (by norm_num)).2

/-- Claim C10: the expected return recorded in the decision is the pro-rated
period return additionally scaled by one minus the product's exercise
probability. -/
theorem C10_theorem (signal : StrategySignal) (p : Product) (pinfo : PortfolioInfo) :
    (DualInvestmentStrategy.make_investment_decision signal p pinfo).expected_return
      = p.apy * (p.term_days / 365) * (1 - p.exercise_probability) := rfl

/-- The base probability chosen by the engine always lies in [0.3, 0.6]. -/
lemma base_probability_bounds (p : Product) (ma : MarketData) :
    3/10 ≤ DualInvestmentEngine.base_probability p ma
    ∧ DualInvestmentEngine.base_probability p ma ≤ 3/5 := by
  unfold DualInvestmentEngine.base_probability
  split_ifs <;> norm_num

/-- Evaluation of the engine on the concrete far-strike input: the result is
`C1_result`, whose exercise probability is exactly 0. -/
lemma C1_eval :
    DualInvestmentEngine.evaluate_dual_investment_opportunity (3/20) C1_product C1_market
      = some C1_result := by
  simp [DualInvestmentEngine.evaluate_dual_investment_opportunity, C1_product, C1_market,
    DualInvestmentEngine.price_distance, DualInvestmentEngine.base_probability, max_def,
    C1_result]
  norm_num

/-- Claim C1 counterexample: the engine applies no clipping, so for a
BUY_LOW product whose strike is far below the market price the exercise
probability is exactly 0, which is below the claimed lower bound 0.01. -/
theorem C1_counterexample :
    DualInvestmentEngine.evaluate_dual_investment_opportunity (3/20) C1_product C1_market
      = some C1_result
    ∧ C1_result.exercise_probability = 0
    ∧ ¬ ((1 : ℚ)/100 ≤ 0) :=
  ⟨C1_eval, rfl, by norm_num⟩

/-- Claim C1 (amended): whenever `evaluate_dual_investment_opportunity`
returns, the exercise probability is nonnegative but unclipped, and when
the volatility ratio is positive and the strike lies on the favorable side
of the current price it is at most the largest base probability 0.6.  The
claimed interval [0.01, 0.99] does not hold: the value can be exactly 0
(and can exceed 0.99 for a strike on the unfavorable side). -/
theorem C1_theorem (mt : ℚ) (p : Product) (ma : MarketData) (r : DualInvestmentEngine.EvalResult)
    (hres : DualInvestmentEngine.evaluate_dual_investment_opportunity mt p ma = some r) :
    0 ≤ r.exercise_probability
    ∧ (0 < ma.volatility_ratio → 0 ≤ DualInvestmentEngine.price_distance p ma →
        r.exercise_probability ≤ 3/5) := by
  have hbp := base_probability_bounds p ma
  simp only [DualInvestmentEngine.evaluate_dual_investment_opportunity] at hres
  rcases eq_or_ne ma.current_price 0 with h1 | h1
  · rw [if_pos h1] at hres; exact absurd hres (by simp)
  rcases eq_or_ne (ma.volatility_ratio * 5) 0 with h2 | h2
  · rw [if_neg h1, if_pos h2] at hres; exact absurd hres (by simp)
  rcases eq_or_ne (1 + ma.volatility_ratio) 0 with h3 | h3
  · rw [if_neg h1, if_neg h2, if_pos h3] at hres; exact absurd hres (by simp)
  · rw [if_neg h1, if_neg h2, if_neg h3, Option.some_inj] at hres
    subst hres
    constructor
    · exact mul_nonneg (by linarith [hbp.1]) (le_max_left 0 _)
    · intro hv hd
      have hden : (0 : ℚ) < ma.volatility_ratio * 5 := by linarith
      have hfrac : 0 ≤ DualInvestmentEngine.price_distance p ma / (ma.volatility_ratio * 5) :=
        div_nonneg hd (le_of_lt hden)
      have hmax : max 0 (1 - DualInvestmentEngine.price_distance p ma / (ma.volatility_ratio * 5)) ≤ 1 :=
        max_le (by norm_num) (by linarith)
      calc DualInvestmentEngine.base_probability p ma
            * max 0 (1 - DualInvestmentEngine.price_distance p ma / (ma.volatility_ratio * 5))
          ≤ 3/5 * max 0 (1 - DualInvestmentEngine.price_distance p ma / (ma.volatility_ratio * 5)) :=
            mul_le_mul_of_nonneg_right hbp.2 (le_max_left 0 _)
        _ ≤ 3/5 * 1 := mul_le_mul_of_nonneg_left hmax (by norm_num)
        _ = 3/5 := by norm_num

/-- Claim C1 witness: the amended bounds hold at the concrete input. -/
theorem C1_witness :
    0 ≤ C1_result.exercise_probability ∧ C1_result.exercise_probability ≤ 3/5 := by
  have h := C1_theorem (3/20) C1_product C1_market C1_result C1_eval
  exact ⟨h.1, h.2 (by norm_num [C1_market]) (by
    simp [DualInvestmentEngine.price_distance, C1_product, C1_market]
    norm_num)⟩

/-- Pointwise comparison of list sums. -/
lemma sum_map_le_sum_map {α : Type} (l : List α) (f g : α → ℚ)
    (h : ∀ x ∈ l, f x ≤ g x) : (l.map f).sum ≤ (l.map g).sum := by
  induction l with
  | nil => simp
  | cons a t ih =>
    simp only [List.map_cons, List.sum_cons]
    exact add_le_add (h a (List.mem_cons_self a t)) (ih fun x hx => h x (List.mem_cons_of_mem a hx))

/-- Pulling a constant factor out of a list sum. -/
lemma sum_map_const_mul {α : Type} (l : List α) (f : α → ℚ) (c : ℚ) :
    (l.map fun x => c * f x).sum = c * (l.map f).sum := by
  induction l with
  | nil => simp
  | cons a t ih => simp [ih, mul_add]

/-- Claim C3 counterexample: with two surviving signals of confidence 0.8
whose strategy weights are 0, the weighted-average ensemble confidence is 0,
strictly below the minimum individual confidence. -/
theorem C3_counterexample :
    (StrategyManager.weighted_average_ensemble (fun _ => 0) [("A", C3_sigA), ("B", C3_sigB)]).map
        StrategySignal.confidence = some 0
    ∧ C3_sigA.confidence = 4/5 ∧ C3_sigB.confidence = 4/5 ∧ ¬ ((4 : ℚ)/5 ≤ 0) := by
  have h3 : pythonRound 3 = 3 := pythonRound_low 3 3 (by norm_num) (by norm_num)
  refine ⟨?_, by norm_num [C3_sigA], by norm_num [C3_sigB], by norm_num⟩
  simp [StrategyManager.weighted_average_ensemble, h3, SignalStrength.ofValue,
    C3_sigA, C3_sigB]

/-- Claim C3 (amended): for every non-empty collection of surviving signals
whose weights are nonnegative with positive total, any ensemble signal
produced by the weighted-average method has a confidence between the
minimum and the maximum of the individual confidences.  (With zero or
negative weights the bound fails, as the counterexample shows.) -/
theorem C3_theorem (w : String → ℚ) (signals : List (String × StrategySignal))
    (s : StrategySignal) (m M : ℚ)
    (hw : ∀ x ∈ signals, 0 ≤ w x.1)
    (hpos : 0 < (signals.map (fun x => w x.1)).sum)
    (hm : ∀ x ∈ signals, m ≤ x.2.confidence)
    (hM : ∀ x ∈ signals, x.2.confidence ≤ M)
    (hres : StrategyManager.weighted_average_ensemble w signals = some s) :
    m ≤ s.confidence ∧ s.confidence ≤ M := by
  have hmW : m * (signals.map fun x => w x.1).sum
      ≤ (signals.map fun x => x.2.confidence * w x.1).sum := by
    rw [← sum_map_const_mul signals (fun x => w x.1) m]
    exact sum_map_le_sum_map _ _ _ (fun x hx => mul_le_mul_of_nonneg_right (hm x hx) (hw x hx))
  have hMW : (signals.map fun x => x.2.confidence * w x.1).sum
      ≤ M * (signals.map fun x => w x.1).sum := by
    rw [← sum_map_const_mul signals (fun x => w x.1) M]
    exact sum_map_le_sum_map _ _ _ (fun x hx => mul_le_mul_of_nonneg_right (hM x hx) (hw x hx))
  simp only [StrategyManager.weighted_average_ensemble] at hres
  rw [if_pos hpos, if_pos hpos] at hres
  split at hres
  · exact absurd hres (by simp)
  · rw [Option.some_inj] at hres
    subst hres
    exact ⟨(le_div_iff₀ hpos).mpr hmW, (div_le_iff₀ hpos).mpr hMW⟩

/-- Claim C3 witness: two BUY signals with weight 1 and confidences 0.5 and
0.7 give an ensemble confidence of 0.6, inside the bounds. -/
theorem C3_witness :
    (1 : ℚ)/2 ≤ C3_ensemble_result.confidence ∧ C3_ensemble_result.confidence ≤ 7/10 := by
  have h4 : pythonRound 4 = 4 := pythonRound_low 4 4 (by norm_num) (by norm_num)
  have hres : StrategyManager.weighted_average_ensemble (fun _ => 1)
      [("A", C3_wsigA), ("B", C3_wsigB)] = some C3_ensemble_result := by
    norm_num [StrategyManager.weighted_average_ensemble, h4, SignalStrength.ofValue,
      SignalStrength.value, C3_wsigA, C3_wsigB, C3_ensemble_result]
  refine C3_theorem (fun _ => 1) [("A", C3_wsigA), ("B", C3_wsigB)] C3_ensemble_result
    (1/2) (7/10) ?_ ?_ ?_ ?_ hres
  · intro x hx; norm_num
  · norm_num
  · intro x hx
    simp only [List.mem_cons, List.not_mem_nil, or_false] at hx
    rcases hx with rfl | rfl <;> norm_num [C3_wsigA, C3_wsigB]
  · intro x hx
    simp only [List.mem_cons, List.not_mem_nil, or_false] at hx
    rcases hx with rfl | rfl <;> norm_num [C3_wsigA, C3_wsigB]

/-- Claim C8: `DualInvestmentStrategy.analyze` sets the confidence to the
weighted sum of the four component scores with weights 0.30 / 0.25 / 0.25 /
0.20 and maps it to a strength through the fixed score bands. -/
theorem C8_theorem (md : MarketData) (p : Product) (ts tech : ℚ)
    (h1 : DualInvestmentStrategy.analyze_trend_score md = some ts)
    (h2 : DualInvestmentStrategy.analyze_technicals md = some tech) :
    ∃ s, DualInvestmentStrategy.analyze md p = some s
      ∧ s.confidence = ts * (3/10) + DualInvestmentStrategy.evaluate_apy p * (1/4)
          + DualInvestmentStrategy.assess_risk p md.volatility_ratio md.risk_level * (1/4)
          + tech * (1/5)
      ∧ s.signal = DualInvestmentStrategy.signal_of_score s.confidence
      ∧ (∀ q : ℚ, 4/5 ≤ q → DualInvestmentStrategy.signal_of_score q = .STRONG_BUY)
      ∧ (∀ q : ℚ, 13/20 ≤ q → q < 4/5 → DualInvestmentStrategy.signal_of_score q = .BUY)
      ∧ (∀ q : ℚ, 7/20 ≤ q → q < 13/20 → DualInvestmentStrategy.signal_of_score q = .NEUTRAL)
      ∧ (∀ q : ℚ, 1/5 ≤ q → q < 7/20 → DualInvestmentStrategy.signal_of_score q = .SELL)
      ∧ (∀ q : ℚ, q < 1/5 → DualInvestmentStrategy.signal_of_score q = .STRONG_SELL) := by
  obtain ⟨s, hs⟩ : ∃ s, DualInvestmentStrategy.analyze md p = some s := by
    simp only [DualInvestmentStrategy.analyze, h1, h2]
    exact ⟨_, rfl⟩
  have hs' := hs
  simp only [DualInvestmentStrategy.analyze, h1, h2, Option.some_inj] at hs'
  subst hs'
  refine ⟨_, hs, ?_, rfl, ?_, ?_, ?_, ?_, ?_⟩
  · norm_num [DualInvestmentStrategy.trend_weight, DualInvestmentStrategy.apy_weight,
      DualInvestmentStrategy.risk_weight, DualInvestmentStrategy.technical_weight]
  · intro q hq
    unfold DualInvestmentStrategy.signal_of_score
    rw [if_pos hq]
  · intro q hq1 hq2
    unfold DualInvestmentStrategy.signal_of_score
    split_ifs <;> first | rfl | linarith
  · intro q hq1 hq2
    unfold DualInvestmentStrategy.signal_of_score
    split_ifs <;> first | rfl | linarith
  · intro q hq1 hq2
    unfold DualInvestmentStrategy.signal_of_score
    split_ifs <;> first | rfl | linarith
  · intro q hq
    unfold DualInvestmentStrategy.signal_of_score
    split_ifs <;> first | rfl | linarith

/-- Claim C8 witness: the weighted-sum equation at a default snapshot and
product (trend score 0.5, technical score 17/30). -/
theorem C8_witness :
    ∃ s, DualInvestmentStrategy.analyze C8_market C8_product = some s
      ∧ s.confidence = (1/2) * (3/10) + DualInvestmentStrategy.evaluate_apy C8_product * (1/4)
          + DualInvestmentStrategy.assess_risk C8_product C8_market.volatility_ratio
              C8_market.risk_level * (1/4)
          + (17/30) * (1/5) := by
  obtain ⟨s, hs, hc, _⟩ := C8_theorem C8_market C8_product (1/2) (17/30)
    rfl
    (by
      have h : DualInvestmentStrategy.analyze_technicals C8_market
          = some ((7/10 + 1/2 + 1/2) / 3) := rfl
      rw [h]
      norm_num)
  exact ⟨s, hs, hc⟩

/-- The last element with a default is the `getLast` of a nonempty list. -/
lemma getLastD_eq_getLast {α : Type} (l : List α) (h : l ≠ []) (d : α) :
    l.getLastD d = l.getLast h := by
  rw [List.getLastD_eq_getLast?, List.getLast?_eq_getLast l h, Option.getD_some]

/-- The default is irrelevant for `getLastD` on a nonempty list. -/
lemma getLastD_congr {α : Type} (l : List α) (h : l ≠ []) (d d' : α) :
    l.getLastD d = l.getLastD d' := by
  rw [getLastD_eq_getLast l h d, getLastD_eq_getLast l h d']

/-- The last element of a nonempty list is a member. -/
lemma getLastD_mem {α : Type} (l : List α) (h : l ≠ []) (d : α) :
    l.getLastD d ∈ l := by
  rw [getLastD_eq_getLast l h d]
  exact List.getLast_mem h

/-- Every member of a cons list is at most the running `foldl max`. -/
lemma le_foldl_max (t : List ℚ) : ∀ a x : ℚ, (x = a ∨ x ∈ t) → x ≤ t.foldl max a := by
  induction t with
  | nil =>
    intro a x hx
    rcases hx with rfl | h
    · exact le_refl x
    · cases h
  | cons b t ih =>
    intro a x hx
    simp only [List.foldl_cons]
    rcases hx with rfl | hx
    · exact le_trans (le_max_left x b) (ih (max x b) (max x b) (Or.inl rfl))
    · rcases List.mem_cons.mp hx with rfl | hx
      · exact le_trans (le_max_right a x) (ih (max a x) (max a x) (Or.inl rfl))
      · exact ih (max a b) x (Or.inr hx)

/-- Every member of a cons list is at least the running `foldl min`. -/
lemma foldl_min_le (t : List ℚ) : ∀ a x : ℚ, (x = a ∨ x ∈ t) → t.foldl min a ≤ x := by
  induction t with
  | nil =>
    intro a x hx
    rcases hx with rfl | h
    · exact le_refl x
    · cases h
  | cons b t ih =>
    intro a x hx
    simp only [List.foldl_cons]
    rcases hx with rfl | hx
    · exact le_trans (ih (min x b) (min x b) (Or.inl rfl)) (min_le_left x b)
    · rcases List.mem_cons.mp hx with rfl | hx
      · exact le_trans (ih (min a x) (min a x) (Or.inl rfl)) (min_le_right a x)
      · exact ih (min a b) x (Or.inr hx)

/-- Members bound `listMax` from below. -/
lemma mem_le_listMax (l : List ℚ) (x : ℚ) (hx : x ∈ l) :
    x ≤ MarketAnalysisService.listMax l := by
  cases l with
  | nil => cases hx
  | cons a t =>
    exact le_foldl_max t a x
      (by rcases List.mem_cons.mp hx with h | h
          · exact Or.inl h
          · exact Or.inr h)

/-- Members bound `listMin` from above. -/
lemma listMin_le_mem (l : List ℚ) (x : ℚ) (hx : x ∈ l) :
    MarketAnalysisService.listMin l ≤ x := by
  cases l with
  | nil => cases hx
  | cons a t =>
    exact foldl_min_le t a x
      (by rcases List.mem_cons.mp hx with h | h
          · exact Or.inl h
          · exact Or.inr h)

/-- Claim C9: whenever `calculate_support_resistance` returns and every bar
in the trailing window satisfies low ≤ close ≤ high, the result has support
equal to the window minimum low, resistance the window maximum high, pivot
the average of the last bar's high, low and close, and
support ≤ pivot ≤ resistance. -/
theorem C9_theorem (w : ℕ) (bars : List MarketAnalysisService.Bar)
    (s : MarketAnalysisService.SRLevels)
    (hres : MarketAnalysisService.calculate_support_resistance w bars = some s)
    (hwf : ∀ b ∈ MarketAnalysisService.tailBars w bars, b.low ≤ b.close ∧ b.close ≤ b.high) :
    s.support = MarketAnalysisService.listMin
        ((MarketAnalysisService.tailBars w bars).map MarketAnalysisService.Bar.low)
    ∧ s.resistance = MarketAnalysisService.listMax
        ((MarketAnalysisService.tailBars w bars).map MarketAnalysisService.Bar.high)
    ∧ s.pivot = (((MarketAnalysisService.tailBars w bars).getLastD { high := 0, low := 0, close := 0 }).high
        + ((MarketAnalysisService.tailBars w bars).getLastD { high := 0, low := 0, close := 0 }).low
        + ((MarketAnalysisService.tailBars w bars).getLastD { high := 0, low := 0, close := 0 }).close) / 3
    ∧ s.support ≤ s.pivot ∧ s.pivot ≤ s.resistance := by
  cases h : MarketAnalysisService.tailBars w bars with
  | nil =>
    rw [MarketAnalysisService.calculate_support_resistance, h] at hres
    exact absurd hres (by simp)
  | cons b rest =>
    rw [MarketAnalysisService.calculate_support_resistance, h, Option.some_inj] at hres
    subst hres
    rw [h] at hwf
    have hne : (b :: rest) ≠ [] := by simp
    have hmem : (b :: rest).getLastD b ∈ b :: rest := getLastD_mem _ hne b
    obtain ⟨hlc, hch⟩ := hwf _ hmem
    have hsup : MarketAnalysisService.listMin ((b :: rest).map MarketAnalysisService.Bar.low)
        ≤ ((b :: rest).getLastD b).low :=
      listMin_le_mem _ _ (List.mem_map_of_mem MarketAnalysisService.Bar.low hmem)
    have hresist : ((b :: rest).getLastD b).high
        ≤ MarketAnalysisService.listMax ((b :: rest).map MarketAnalysisService.Bar.high) :=
      mem_le_listMax _ _ (List.mem_map_of_mem MarketAnalysisService.Bar.high hmem)
    refine ⟨rfl, rfl, ?_, ?_, ?_⟩
    · rw [getLastD_congr (b :: rest) hne { high := 0, low := 0, close := 0 } b]
    · have : ((b :: rest).getLastD b).low
          ≤ (((b :: rest).getLastD b).high + ((b :: rest).getLastD b).low
              + ((b :: rest).getLastD b).close) / 3 := by linarith
      exact le_trans hsup this
    · have : (((b :: rest).getLastD b).high + ((b :: rest).getLastD b).low
          + ((b :: rest).getLastD b).close) / 3 ≤ ((b :: rest).getLastD b).high := by linarith
      exact le_trans this hresist

/-- Claim C9 witness: the invariant at two concrete well-formed bars. -/
theorem C9_witness : C9_levels.support ≤ C9_levels.pivot ∧ C9_levels.pivot ≤ C9_levels.resistance :=
  (C9_theorem 20 C9_bars C9_levels rfl
    (by
      intro b hb
      simp only [MarketAnalysisService.tailBars, C9_bars, List.length_cons, List.length_nil,
        List.drop] at hb
      rcases List.mem_cons.mp hb with rfl | hb
      · constructor <;> norm_num
      · rcases List.mem_cons.mp hb with rfl | hb
        · constructor <;> norm_num
        · cases hb)).2.2.2

/-- A list of elements all below `M` has sum below `length * M`. -/
lemma sum_lt_of_forall_lt (l : List ℚ) (M : ℚ) (hne : l ≠ []) (h : ∀ x ∈ l, x < M) :
    l.sum < l.length * M := by
  induction l with
  | nil => exact absurd rfl hne
  | cons a t ih =>
    rcases eq_or_ne t [] with rfl | hne'
    · simp only [List.sum_cons, List.sum_nil, List.length_cons, List.length_nil, add_zero]
      push_cast
      linarith [h a (List.mem_cons_self a [])]
    · have ht := ih hne' (fun x hx => h x (List.mem_cons_of_mem a hx))
      simp only [List.sum_cons, List.length_cons]
      push_cast
      have ha := h a (List.mem_cons_self a t)
      linarith

/-- A list of elements all at least `m` has sum at least `length * m`. -/
lemma le_sum_of_forall_le (l : List ℚ) (m : ℚ) (h : ∀ x ∈ l, m ≤ x) :
    l.length * m ≤ l.sum := by
  induction l with
  | nil => simp
  | cons a t ih =>
    have ht := ih (fun x hx => h x (List.mem_cons_of_mem a hx))
    simp only [List.sum_cons, List.length_cons]
    push_cast
    have ha := h a (List.mem_cons_self a t)
    linarith

/-- A strictly increasing list of length at least two has sum strictly
below `length * last`. -/
lemma sorted_sum_lt (l : List ℚ) (hp : l.Pairwise (fun a b => a < b))
    (hlen : 2 ≤ l.length) : l.sum < l.length * l.getLastD 0 := by
  have hne : l ≠ [] := by
    intro hnil
    rw [hnil] at hlen
    simp at hlen
  have hsplit := List.dropLast_append_getLast hne
  have hlt : ∀ x ∈ l.dropLast, x < l.getLast hne := by
    have hp' : (l.dropLast ++ [l.getLast hne]).Pairwise (fun a b => a < b) := by
      rw [hsplit]; exact hp
    intro x hx
    exact (List.pairwise_append.mp hp').2.2 x hx _ (List.mem_singleton_self _)
  have hdl : l.dropLast ≠ [] := by
    intro hnil
    have := List.length_dropLast l
    rw [hnil] at this
    simp at this
    omega
  have h1 : l.dropLast.sum < l.dropLast.length * l.getLast hne :=
    sum_lt_of_forall_lt _ _ hdl hlt
  have h2 : l.sum = l.dropLast.sum + l.getLast hne := by
    conv_lhs => rw [← hsplit]
    rw [List.sum_append, List.sum_cons, List.sum_nil, add_zero]
  have h3 : (l.dropLast.length : ℚ) = (l.length : ℚ) - 1 := by
    rw [List.length_dropLast]
    have h1l : 1 ≤ l.length := by omega
    push_cast [h1l]
    ring
  rw [getLastD_eq_getLast l hne 0, h2]
  rw [h3] at h1
  linarith

/-- Claim C7: a strictly increasing close series of length at least 200 is
classified as BULLISH by `analyze_trend`. -/
theorem C7_theorem (closes : List ℚ) (hlen : 200 ≤ closes.length)
    (hmono : closes.Pairwise (fun a b => a < b)) :
    (MarketAnalysisService.analyze_trend closes).map Prod.fst = some "BULLISH" := by
  cases closes with
  | nil => simp at hlen
  | cons c0 rest =>
  have hlen' : 200 ≤ (c0 :: rest).length := hlen
  have hnotlt : ¬ (c0 :: rest).length < 50 := by omega
  have hne : (c0 :: rest) ≠ [] := by simp
  -- the trailing 20-bar window
  have hB20len : ((c0 :: rest).drop ((c0 :: rest).length - 20)).length = 20 := by
    rw [List.length_drop]; omega
  have hB20ne : (c0 :: rest).drop ((c0 :: rest).length - 20) ≠ [] := by
    intro hnil
    rw [hnil] at hB20len
    simp at hB20len
  have hB20p : ((c0 :: rest).drop ((c0 :: rest).length - 20)).Pairwise (fun a b => a < b) :=
    List.Pairwise.sublist (List.drop_sublist _ _) hmono
  have hB20last : ((c0 :: rest).drop ((c0 :: rest).length - 20)).getLastD 0
      = (c0 :: rest).getLastD 0 := by
    rw [List.getLastD_eq_getLast?, List.getLastD_eq_getLast?, List.getLast?_drop,
      if_neg (by omega)]
  -- SMA-20 is below the current price
  have hg1 : MarketAnalysisService.smaLast 20 (c0 :: rest) < (c0 :: rest).getLastD c0 := by
    have hsum := sorted_sum_lt _ hB20p (by omega)
    rw [hB20len, hB20last] at hsum
    unfold MarketAnalysisService.smaLast MarketAnalysisService.lastN
    rw [getLastD_congr (c0 :: rest) hne c0 0]
    rw [div_lt_iff₀ (by norm_num : (0:ℚ) < ((20:ℕ) : ℚ))]
    push_cast
    push_cast at hsum
    linarith
  -- the trailing 50-bar window and its decomposition
  have hB50len : ((c0 :: rest).drop ((c0 :: rest).length - 50)).length = 50 := by
    rw [List.length_drop]; omega
  have hB50p : ((c0 :: rest).drop ((c0 :: rest).length - 50)).Pairwise (fun a b => a < b) :=
    List.Pairwise.sublist (List.drop_sublist _ _) hmono
  have hdrop30 : ((c0 :: rest).drop ((c0 :: rest).length - 50)).drop 30
      = (c0 :: rest).drop ((c0 :: rest).length - 20) := by
    rw [List.drop_drop]
    congr 1
    omega
  have hsplit : ((c0 :: rest).drop ((c0 :: rest).length - 50)).take 30
      ++ (c0 :: rest).drop ((c0 :: rest).length - 20)
      = (c0 :: rest).drop ((c0 :: rest).length - 50) := by
    rw [← hdrop30]
    exact List.take_append_drop 30 _
  have hAlen : (((c0 :: rest).drop ((c0 :: rest).length - 50)).take 30).length = 30 := by
    rw [List.length_take, hB50len]
    omega
  have hAne : ((c0 :: rest).drop ((c0 :: rest).length - 50)).take 30 ≠ [] := by
    intro hnil
    rw [hnil] at hAlen
    simp at hAlen
  have hAB : ∀ a ∈ ((c0 :: rest).drop ((c0 :: rest).length - 50)).take 30,
      ∀ x ∈ (c0 :: rest).drop ((c0 :: rest).length - 20), a < x := by
    have hp2 : (((c0 :: rest).drop ((c0 :: rest).length - 50)).take 30
        ++ (c0 :: rest).drop ((c0 :: rest).length - 20)).Pairwise (fun a b => a < b) := by
      rw [hsplit]; exact hB50p
    exact (List.pairwise_append.mp hp2).2.2
  -- head of the 20-bar window
  obtain ⟨b0, t20, hB20eq⟩ : ∃ b0 t20, (c0 :: rest).drop ((c0 :: rest).length - 20) = b0 :: t20 := by
    cases hB : (c0 :: rest).drop ((c0 :: rest).length - 20) with
    | nil => exact absurd hB hB20ne
    | cons x xs => exact ⟨x, xs, rfl⟩
  have hb0mem : b0 ∈ (c0 :: rest).drop ((c0 :: rest).length - 20) := by
    rw [hB20eq]; exact List.mem_cons_self b0 t20
  have hA_lt_b0 : ∀ a ∈ ((c0 :: rest).drop ((c0 :: rest).length - 50)).take 30, a < b0 :=
    fun a ha => hAB a ha b0 hb0mem
  have hb0_le : ∀ x ∈ (c0 :: rest).drop ((c0 :: rest).length - 20), b0 ≤ x := by
    intro x hx
    rw [hB20eq] at hx
    rcases List.mem_cons.mp hx with rfl | hx
    · exact le_refl x
    · have hp20 : (b0 :: t20).Pairwise (fun a b => a < b) := by rw [← hB20eq]; exact hB20p
      exact le_of_lt ((List.pairwise_cons.mp hp20).1 x hx)
  have hAsum : (((c0 :: rest).drop ((c0 :: rest).length - 50)).take 30).sum < 30 * b0 := by
    have := sum_lt_of_forall_lt _ b0 hAne hA_lt_b0
    rw [hAlen] at this
    push_cast at this
    linarith
  have hB20sum : 20 * b0 ≤ ((c0 :: rest).drop ((c0 :: rest).length - 20)).sum := by
    have := le_sum_of_forall_le _ b0 hb0_le
    rw [hB20len] at this
    push_cast at this
    linarith
  have hB50sum : ((c0 :: rest).drop ((c0 :: rest).length - 50)).sum
      = (((c0 :: rest).drop ((c0 :: rest).length - 50)).take 30).sum
        + ((c0 :: rest).drop ((c0 :: rest).length - 20)).sum := by
    conv_lhs => rw [← hsplit]
    rw [List.sum_append]
  -- SMA-50 is below SMA-20
  have hg2 : MarketAnalysisService.smaLast 50 (c0 :: rest)
      < MarketAnalysisService.smaLast 20 (c0 :: rest) := by
    unfold MarketAnalysisService.smaLast MarketAnalysisService.lastN
    rw [div_lt_div_iff₀ (by norm_num : (0:ℚ) < ((50:ℕ) : ℚ)) (by norm_num : (0:ℚ) < ((20:ℕ) : ℚ))]
    push_cast
    rw [hB50sum]
    linarith
  simp only [MarketAnalysisService.analyze_trend]
  rw [if_neg hnotlt, if_pos ⟨hg1, hg2⟩]
  rfl

/-- Claim C7 witness: the strictly increasing series 0, 1, ..., 199. -/
theorem C7_witness : (MarketAnalysisService.analyze_trend C7_list).map Prod.fst = some "BULLISH" := by
  apply C7_theorem
  · rw [C7_list, List.length_map, List.length_range]
  · unfold C7_list
    exact List.Pairwise.map (fun i : ℕ => (i : ℚ))
      (fun a b hab => Nat.cast_lt.mpr hab) (List.pairwise_lt_range 200)

end DualAssetBot
